import Mathlib

/-!
Shallow embedding of the DERSTY email gateway (`src/server.js`) and proofs of
the specified properties.  The JavaScript route handlers are translated into
pure Lean functions; the external collaborators (IMAP session, SMTP transport,
MIME parser, SHA-256) are modelled as explicit parameters or as data attached
to the mailbox state, following the capability interfaces of the design
document (§6).
-/

namespace DerstyGateway

/-! ### JavaScript-semantics primitives -/

/-- Truthiness of a JS value holding an optional string: `undefined`/absent and
the empty string are falsy (used by `!email`, `a || b`, `parsed.references ? ..`). -/
def jsFalsyStr : Option String → Bool
  | none => true
  | some s => s = ""

/-- Truthiness of a JS value holding an optional number: `undefined` and `0`
are falsy (used by `if (cursor)` and `cursor ? Number(cursor) : 0`). -/
def jsTruthyNat : Option Nat → Bool
  | none => false
  | some n => n ≠ 0

/-- JS `a || b` on two strings (empty string is falsy). -/
def jsOrS (a b : String) : String := if a = "" then b else a

/-- JS `a || b` where `a` may be `undefined` (absent) and `b` is a string. -/
def jsOrStr (a : Option String) (b : String) : String :=
  match a with
  | none => b
  | some s => if s = "" then b else s

/-- Whitespace predicate modelling the regex class `\s`. -/
def isWs (c : Char) : Bool := c.isWhitespace

/-- Model of `String.prototype.replace(/\s+/g, " ")` on the character list:
every maximal run of whitespace becomes a single space. -/
def collapseRuns : List Char → List Char
  | [] => []
  | [c] => [if isWs c then ' ' else c]
  | a :: b :: rest =>
    if isWs a && isWs b then collapseRuns (b :: rest)
    else (if isWs a then ' ' else a) :: collapseRuns (b :: rest)

/-- Model of `String.prototype.trim()`: strip whitespace from both ends. -/
def trimChars (l : List Char) : List Char :=
  ((l.dropWhile isWs).reverse.dropWhile isWs).reverse

/-- JS `s.replace(/\s+/g, " ")`. -/
def jsCollapseWs (s : String) : String := String.mk (collapseRuns s.data)

/-- JS `s.trim()`. -/
def jsTrim (s : String) : String := String.mk (trimChars s.data)

/-- JS `s.slice(0, n)`. -/
def jsSlice (s : String) (n : Nat) : String := String.mk (s.data.take n)

/-- JS `uids.sort((a, b) => a - b)`: ascending numeric sort. -/
def jsSortAsc (l : List Nat) : List Nat := l.insertionSort (· ≤ ·)

/-- JS `uids.sort((a, b) => b - a)`: descending numeric sort.  The descending
ordering of a multiset of naturals is unique, so it is modelled as the
reversal of the ascending sort. -/
def jsSortDesc (l : List Nat) : List Nat := (l.insertionSort (· ≤ ·)).reverse

/-! ### Host config resolver (`cfg`, server.js lines 32–41) -/

/-- Caller-supplied `advanced` override record; absent fields are `none`
(JS `undefined`), which `??` replaces by the provider default. -/
structure Overrides where
  imapPort : Option Nat := none
  imapSecure : Option Bool := none
  smtpHost : Option String := none
  smtpPort : Option Nat := none
  smtpSecure : Option Bool := none
deriving DecidableEq

/-- Effective connection configuration produced by `cfg`. -/
structure ConnectionConfig where
  imapHost : String
  imapPort : Nat
  imapSecure : Bool
  smtpHost : String
  smtpPort : Nat
  smtpSecure : Bool
deriving DecidableEq

/-- Resolver `cfg(overrides)`: Namecheap provider defaults merged with the overrides.
Note that `imapHost` is fixed and `smtpHost` uses `overrides.smtpHost ?? "mail.privateemail.com"`. -/
def cfg (overrides : Overrides) : ConnectionConfig :=
  { imapHost := "mail.privateemail.com"
    imapPort := overrides.imapPort.getD 993
    imapSecure := overrides.imapSecure.getD true
    smtpHost := overrides.smtpHost.getD "mail.privateemail.com"
    smtpPort := overrides.smtpPort.getD 465
    smtpSecure := overrides.smtpSecure.getD true }

/-! ### Mail data model -/

/-- The `references` field returned by the MIME parser can be an array, a
single string, or absent (`Array.isArray(parsed.references) ? ... : ...`). -/
inductive RefsField where
  | noRefs : RefsField
  | strRef (s : String) : RefsField
  | arrRef (l : List String) : RefsField
deriving DecidableEq

/-- Normalization `Array.isArray(parsed.references) ? parsed.references
: (parsed.references ? [parsed.references] : [])` — a truthy (non-empty)
string becomes a singleton, anything falsy becomes the empty list. -/
def normRefs : RefsField → List String
  | RefsField.noRefs => []
  | RefsField.strRef s => if s = "" then [] else [s]
  | RefsField.arrRef l => l

/-- Result of `simpleParser(msg.source)` for one raw message (MIME parser
collaborator, §6).  `date` is modelled as a millisecond timestamp. -/
structure Parsed where
  subject : Option String := none
  fromAddress : Option String := none
  text : Option String := none
  html : Option String := none
  date : Option Int := none
  messageId : Option String := none
  inReplyTo : Option String := none
  references : RefsField := RefsField.noRefs
deriving DecidableEq

/-- One message as held by the mailbox: fetch metadata (uid, internal date,
envelope, flags) together with the deterministic parse of its raw source. -/
structure MailMsg where
  uid : Nat
  internalDate : Int
  envSubject : Option String := none
  envFromAddress : Option String := none
  flags : List String := []
  parsed : Parsed := {}
deriving DecidableEq

/-- The normalized message shape returned by `/sync` (§3 NormalizedMessage). -/
structure NormalizedMessage where
  externalThreadKey : String
  messageId : String
  inReplyTo : String
  references : List String
  subject : String
  fromEmail : String
  date : Int
  flags : List String
  snippet : String
  bodyText : String
  bodyHtml : String
deriving DecidableEq

/-! ### Thread-key deriver (server.js lines 149–152) -/

/-- Fallback chain `references.join(" ") || inReplyTo || messageId || subject`. -/
def threadKeyBase (references : List String) (inReplyTo messageId subject : String) : String :=
  jsOrS (String.intercalate " " references) (jsOrS inReplyTo (jsOrS messageId subject))

/-- The exact string fed to the SHA-256 hash: base + `"|"` + sender. -/
def threadKeyInput (references : List String) (inReplyTo messageId subject fromEmail : String) :
    String :=
  threadKeyBase references inReplyTo messageId subject ++ "|" ++ fromEmail

/-- Key derivation `crypto.createHash("sha256").update(input).digest("hex")`, with the hash
function itself (an external library primitive) abstracted as a parameter. -/
def externalThreadKey (hash : String → String) (references : List String)
    (inReplyTo messageId subject fromEmail : String) : String :=
  hash (threadKeyInput references inReplyTo messageId subject fromEmail)

/-! ### Message normalization (server.js lines 131–166, loop body) -/

/-- Build one NormalizedMessage from a fetched message, mirroring the `/sync`
loop body.  `now` is the current time used as the fallback `date`. -/
def normalizeMsg (hash : String → String) (now : Int) (m : MailMsg) : NormalizedMessage :=
  let subject := jsOrStr m.parsed.subject (jsOrStr m.envSubject "(no subject)")
  let fromEmail := jsOrStr m.parsed.fromAddress (jsOrStr m.envFromAddress "")
  let snippet := jsSlice (jsTrim (jsCollapseWs (jsOrStr m.parsed.text (jsOrS subject "")))) 240
  let bodyText := jsSlice (jsOrStr m.parsed.text "") 20000
  let bodyHtml := jsSlice (jsOrStr m.parsed.html "") 20000
  let messageId := jsOrStr m.parsed.messageId ""
  let inReplyTo := jsOrStr m.parsed.inReplyTo ""
  let references := normRefs m.parsed.references
  { externalThreadKey := externalThreadKey hash references inReplyTo messageId subject fromEmail
    messageId := messageId
    inReplyTo := inReplyTo
    references := references
    subject := subject
    fromEmail := fromEmail
    date := m.parsed.date.getD now
    flags := m.flags
    snippet := snippet
    bodyText := bodyText
    bodyHtml := bodyHtml }

/-! ### Mailbox search, batching and fetch (server.js lines 112–169) -/

/-- The two search criteria the sync handler issues. -/
inductive SearchCriteria where
  | uidFrom (n : Nat) : SearchCriteria
  | since (t : Int) : SearchCriteria

/-- Search `client.search(criteria)` (mail-protocol session collaborator, §6):
`uidFrom n` returns the identifiers of messages with uid ≥ n (the handler
passes `cursor+1:*`, i.e. strictly greater than the cursor); `since t` returns
the identifiers of messages whose timestamp is at least `t`. -/
def searchMail (world : List MailMsg) : SearchCriteria → List Nat
  | SearchCriteria.uidFrom n => (world.filter (fun m => n ≤ m.uid)).map (fun m => m.uid)
  | SearchCriteria.since t => (world.filter (fun m => t ≤ m.internalDate)).map (fun m => m.uid)

/-- Candidate identifier set: `if (cursor) { search({uid: cursor+1:*}) } else
{ search({since: now - backfillDays*24*60*60*1000}) }`. -/
def syncUids (world : List MailMsg) (cursor : Option Nat) (now : Int)
    (backfillDays : Nat) : List Nat :=
  if jsTruthyNat cursor then
    searchMail world (SearchCriteria.uidFrom (cursor.getD 0 + 1))
  else
    searchMail world (SearchCriteria.since (now - (backfillDays : Int) * (24 * 60 * 60 * 1000)))

/-- Initial running maximum: `let maxUid = cursor ? Number(cursor) : 0`. -/
def effCursor (cursor : Option Nat) : Nat :=
  if jsTruthyNat cursor then cursor.getD 0 else 0

/-- Batching `uids.sort((a,b)=>b-a); uids = uids.slice(0, limit); uids.sort((a,b)=>a-b)`. -/
def orderBatch (uids : List Nat) (limit : Nat) : List Nat :=
  jsSortAsc ((jsSortDesc uids).take limit)

/-- Fetch `client.fetch(uids, ...)`: yields, for each requested uid in order, the
mailbox message carrying that uid (dropping uids with no such message). -/
def fetchMsgs (world : List MailMsg) (uids : List Nat) : List MailMsg :=
  uids.filterMap (fun u => world.find? (fun m => m.uid == u))

/-- The fetched batch of one sync call, in delivery order. -/
def syncBatch (world : List MailMsg) (cursor : Option Nat) (now : Int)
    (backfillDays limit : Nat) : List MailMsg :=
  fetchMsgs world (orderBatch (syncUids world cursor now backfillDays) limit)

/-- The uid sequence underlying the returned batch. -/
def syncBatchUids (world : List MailMsg) (cursor : Option Nat) (now : Int)
    (backfillDays limit : Nat) : List Nat :=
  (syncBatch world cursor now backfillDays limit).map (fun m => m.uid)

/-- Successful `/sync` payload: `{ cursor: maxUid, messages }`. -/
structure SyncOut where
  cursor : Nat
  messages : List NormalizedMessage
deriving DecidableEq

/-- The core of the `/sync` handler after validation (server.js lines
112–169): search, order/bound the batch, fetch and normalize each message
while tracking the running maximum uid. -/
def syncOk (hash : String → String) (world : List MailMsg) (cursor : Option Nat)
    (now : Int) (backfillDays limit : Nat) : SyncOut :=
  let msgs := syncBatch world cursor now backfillDays limit
  { cursor := msgs.foldl (fun acc m => max acc m.uid) (effCursor cursor)
    messages := msgs.map (normalizeMsg hash now) }

/-- The cursor-independent tail of the sync pipeline: everything the handler
does once the candidate identifier set and the initial running maximum are
fixed. -/
def processBatch (hash : String → String) (world : List MailMsg) (candidates : List Nat)
    (initialMax : Nat) (now : Int) (limit : Nat) : SyncOut :=
  let msgs := fetchMsgs world (orderBatch candidates limit)
  { cursor := msgs.foldl (fun acc m => max acc m.uid) initialMax
    messages := msgs.map (normalizeMsg hash now) }

/-! ### The `/sync` route (server.js lines 99–178) -/

/-- Request body of `/sync`, with the handler's destructuring defaults
(`backfillDays = 14`, `limit = 50`). -/
structure SyncBody where
  email : Option String := none
  password : Option String := none
  cursor : Option Nat := none
  backfillDays : Nat := 14
  limit : Nat := 50
  advanced : Overrides := {}
deriving DecidableEq

/-- HTTP outcome of `/sync`. -/
inductive SyncHttpResponse where
  | ok (cursor : Nat) (messages : List NormalizedMessage) : SyncHttpResponse
  | badRequest (error : String) : SyncHttpResponse
deriving DecidableEq

/-- A network operation performed by a handler (recorded as a trace). -/
inductive NetAction where
  | connect (host : String) (port : Nat) (secure : Bool) (user : String) : NetAction
deriving DecidableEq

/-- The `/sync` handler: validation, then the sync core.  The second
component records every network connection the handler opens. -/
def syncRoute (hash : String → String) (world : List MailMsg) (now : Int)
    (body : SyncBody) : SyncHttpResponse × List NetAction :=
  if jsFalsyStr body.email || jsFalsyStr body.password then
    (SyncHttpResponse.badRequest "Missing email/password", [])
  else
    let c := cfg body.advanced
    let r := syncOk hash world body.cursor now body.backfillDays body.limit
    (SyncHttpResponse.ok r.cursor r.messages,
      [NetAction.connect c.imapHost c.imapPort c.imapSecure (body.email.getD "")])

/-! ### The `/test` route, outbound half (server.js lines 66–96) -/

/-- Result shape of `testSmtp`. -/
structure TestSmtpResult where
  ok : Bool
  error : Option String
  smtpHost : String
deriving DecidableEq

/-- Handler `testSmtp({email,password,advanced,smtpHostOverride})`: the override
record has its `smtpHost` field overwritten by `smtpHostOverride ?? undefined`
before `cfg` merges it; then `transport.verify()` (modelled by the `verify`
parameter, keyed by the resolved configuration) is attempted once. -/
def testSmtp (verify : ConnectionConfig → Except String Unit) (advanced : Overrides)
    (smtpHostOverride : Option String) : TestSmtpResult :=
  let c := cfg { advanced with smtpHost := smtpHostOverride }
  match verify c with
  | Except.ok _ => { ok := true, error := none, smtpHost := c.smtpHost }
  | Except.error e => { ok := false, error := some e, smtpHost := c.smtpHost }

/-- The outbound part of the `/test` handler (lines 88–94): try the primary
host, and on failure try the fixed secondary host; the fallback result
replaces the primary result only when the fallback succeeded.  The second
component records the host of every attempt, in order. -/
def testRouteSmtp (verify : ConnectionConfig → Except String Unit)
    (advanced : Overrides) : TestSmtpResult × List String :=
  let smtp := testSmtp verify advanced none
  if smtp.ok then (smtp, [smtp.smtpHost])
  else
    let fallback := testSmtp verify advanced (some "smtp.privateemail.com")
    (if fallback.ok then fallback else smtp, [smtp.smtpHost, fallback.smtpHost])

/-! ### The `/send` route (server.js lines 180–217) -/

/-- Request body of `/send` (`headers = {}` by default). -/
structure SendBody where
  fromEmail : Option String := none
  password : Option String := none
  rcptTo : Option String := none
  cc : Option String := none
  subject : Option String := none
  bodyText : Option String := none
  bodyHtml : Option String := none
  headers : List (String × String) := []
  advanced : Overrides := {}
deriving DecidableEq

/-- The message record handed to `transport.sendMail`. -/
structure MailContent where
  mailFrom : String
  rcptTo : String
  cc : Option String
  subject : String
  text : Option String
  html : Option String
  headers : List (String × String)
deriving DecidableEq

/-- Build the `sendMail` argument from the request body (server.js 195–203). -/
def mailContentOf (b : SendBody) : MailContent :=
  { mailFrom := b.fromEmail.getD ""
    rcptTo := b.rcptTo.getD ""
    cc := b.cc
    subject := b.subject.getD ""
    text := b.bodyText
    html := b.bodyHtml
    headers := b.headers }

/-- One SMTP delivery attempt: the resolved transport configuration, the
message content handed over, and the collaborator's outcome (message id or
error). -/
structure SmtpAttempt where
  config : ConnectionConfig
  mail : MailContent
  outcome : Except String String

/-- Helper `trySend(host)` (server.js 186–206): resolve the config with the
override's `smtpHost` field overwritten by `host`, then hand the message to
the transport (modelled by `sendMail`). -/
def trySendModel (sendMail : ConnectionConfig → MailContent → Except String String)
    (advanced : Overrides) (mail : MailContent) (host : String) : SmtpAttempt :=
  let c := cfg { advanced with smtpHost := some host }
  { config := c, mail := mail, outcome := sendMail c mail }

/-- HTTP outcome of `/send`. -/
inductive SendHttpResponse where
  | ok (messageId : String) (usedHost : String) : SendHttpResponse
  | badRequest (error : String) : SendHttpResponse
  | serverError (error : String) : SendHttpResponse
deriving DecidableEq

/-- The `/send` validation predicate:
`!fromEmail || !password || !to || !subject || (!bodyText && !bodyHtml)`. -/
def sendMissing (b : SendBody) : Bool :=
  jsFalsyStr b.fromEmail || jsFalsyStr b.password || jsFalsyStr b.rcptTo
    || jsFalsyStr b.subject || (jsFalsyStr b.bodyText && jsFalsyStr b.bodyHtml)

/-- The `/send` handler: validation, primary attempt, and on any failure one
retry of the whole send via the fixed secondary host.  The second component
records every delivery attempt, in order. -/
def sendRoute (sendMail : ConnectionConfig → MailContent → Except String String)
    (body : SendBody) : SendHttpResponse × List SmtpAttempt :=
  if sendMissing body then
    (SendHttpResponse.badRequest "Missing required fields", [])
  else
    let mail := mailContentOf body
    let a1 := trySendModel sendMail body.advanced mail "mail.privateemail.com"
    match a1.outcome with
    | Except.ok id => (SendHttpResponse.ok id a1.config.smtpHost, [a1])
    | Except.error _ =>
      let a2 := trySendModel sendMail body.advanced mail "smtp.privateemail.com"
      match a2.outcome with
      | Except.ok id => (SendHttpResponse.ok id a2.config.smtpHost, [a1, a2])
      | Except.error e => (SendHttpResponse.serverError e, [a1, a2])

/-- Whether a collaborator outcome is a success. -/
def exceptOk : Except String String → Bool
  | Except.ok _ => true
  | Except.error _ => false

/-- Number of attempts in a trace that the transport accepted. -/
def acceptedCount (l : List SmtpAttempt) : Nat :=
  (l.filter (fun a => exceptOk a.outcome)).length

/-- Whether a `/send` response reports a delivered message. -/
def isOkResp : SendHttpResponse → Bool
  | SendHttpResponse.ok _ _ => true
  | _ => false

/-! ### Helper lemmas: sorting and batching -/

theorem jsSortAsc_sorted (l : List Nat) : List.Sorted (· ≤ ·) (jsSortAsc l) :=
  List.sorted_insertionSort _ l

theorem jsSortAsc_perm (l : List Nat) : List.Perm (jsSortAsc l) l :=
  List.perm_insertionSort _ l

theorem jsSortAsc_eq_of_perm_sorted {l m : List Nat} (hp : List.Perm l m)
    (hm : List.Sorted (· ≤ ·) m) : jsSortAsc l = m :=
  List.eq_of_perm_of_sorted ((jsSortAsc_perm l).trans hp) (jsSortAsc_sorted l) hm

theorem jsSortAsc_length (l : List Nat) : (jsSortAsc l).length = l.length :=
  (jsSortAsc_perm l).length_eq

/-- The descending-then-truncate-then-ascending pipeline keeps exactly the
suffix (the greatest elements) of the ascending ordering of the candidates. -/
theorem orderBatch_eq_drop (l : List Nat) (k : Nat) :
    orderBatch l k = (jsSortAsc l).drop (l.length - k) := by
  have hrev : (jsSortDesc l).take k
      = ((jsSortAsc l).drop ((jsSortAsc l).length - k)).reverse := by
    unfold jsSortDesc jsSortAsc
    exact List.take_reverse
  have hsorted : List.Sorted (· ≤ ·) ((jsSortAsc l).drop ((jsSortAsc l).length - k)) :=
    (jsSortAsc_sorted l).sublist (List.drop_sublist _ _)
  have := jsSortAsc_eq_of_perm_sorted
    (l := ((jsSortAsc l).drop ((jsSortAsc l).length - k)).reverse)
    (List.reverse_perm _) hsorted
  unfold orderBatch
  rw [hrev, this, jsSortAsc_length]

theorem orderBatch_sorted (l : List Nat) (k : Nat) :
    List.Sorted (· ≤ ·) (orderBatch l k) :=
  jsSortAsc_sorted _

theorem orderBatch_subset {l : List Nat} {k : Nat} {u : Nat} (h : u ∈ orderBatch l k) :
    u ∈ l := by
  rw [orderBatch_eq_drop] at h
  exact (jsSortAsc_perm l).mem_iff.mp (List.mem_of_mem_drop h)

theorem orderBatch_length {l : List Nat} {k : Nat} (h : k ≤ l.length) :
    (orderBatch l k).length = k := by
  rw [orderBatch_eq_drop, List.length_drop, jsSortAsc_length]
  omega

/-! ### Helper lemmas: fetch -/

theorem fetchMsgs_map_uid (w : List MailMsg) (l : List Nat) :
    (fetchMsgs w l).map (fun m => m.uid)
      = l.filter (fun u => (w.find? (fun m => m.uid == u)).isSome) := by
  induction l with
  | nil => rfl
  | cons u rest ih =>
    unfold fetchMsgs
    rw [List.filterMap_cons]
    cases hf : w.find? (fun m => m.uid == u) with
    | none =>
      have : (w.find? (fun m => m.uid == u)).isSome = false := by rw [hf]; rfl
      simpa [List.filter_cons, this] using ih
    | some m =>
      have hssome : (w.find? (fun m => m.uid == u)).isSome = true := by rw [hf]; rfl
      have huid : m.uid = u := by
        have hm := List.find?_some (p := fun m : MailMsg => m.uid == u) hf
        simpa using hm
      simp only [List.map_cons, List.filter_cons, hssome, if_pos]
      rw [huid]
      exact congrArg (u :: ·) ih

theorem mem_fetchMsgs {w : List MailMsg} {l : List Nat} {m : MailMsg}
    (h : m ∈ fetchMsgs w l) : m ∈ w := by
  unfold fetchMsgs at h
  obtain ⟨u, _, hfind⟩ := List.mem_filterMap.mp h
  exact List.mem_of_find?_eq_some hfind

theorem mem_map_uid_fetchMsgs {w : List MailMsg} {l : List Nat} {u : Nat}
    (h : u ∈ (fetchMsgs w l).map (fun m => m.uid)) : u ∈ l := by
  rw [fetchMsgs_map_uid] at h
  exact List.mem_of_mem_filter h

theorem fetchMsgs_map_uid_eq_self {w : List MailMsg} {l : List Nat}
    (h : ∀ u ∈ l, ∃ m ∈ w, m.uid = u) :
    (fetchMsgs w l).map (fun m => m.uid) = l := by
  rw [fetchMsgs_map_uid]
  refine List.filter_eq_self.mpr fun u hu => ?_
  obtain ⟨m, hm, huid⟩ := h u hu
  exact List.find?_isSome.mpr ⟨m, hm, by simp [huid]⟩

/-! ### Helper lemmas: running maximum -/

theorem le_foldl_max (l : List Nat) (init : Nat) : init ≤ l.foldl max init := by
  induction l generalizing init with
  | nil => exact Nat.le_refl _
  | cons a rest ih =>
    exact Nat.le_trans (Nat.le_max_left init a) (ih (max init a))

theorem mem_le_foldl_max {l : List Nat} {u : Nat} (init : Nat) (h : u ∈ l) :
    u ≤ l.foldl max init := by
  induction l generalizing init with
  | nil => cases h
  | cons a rest ih =>
    rcases List.mem_cons.mp h with rfl | hmem
    · exact Nat.le_trans (Nat.le_max_right init u) (le_foldl_max rest _)
    · exact ih _ hmem

theorem foldl_max_eq_init_or_mem (l : List Nat) (init : Nat) :
    l.foldl max init = init ∨ l.foldl max init ∈ l := by
  induction l generalizing init with
  | nil => exact Or.inl rfl
  | cons a rest ih =>
    rcases ih (max init a) with h | h
    · rcases max_choice init a with hm | hm
      · exact Or.inl (by rw [List.foldl_cons, h, hm])
      · exact Or.inr (by rw [List.foldl_cons, h, hm]; exact List.mem_cons_self _ _)
    · exact Or.inr (List.mem_cons_of_mem _ h)

/-! ### Helper lemmas: search and the sync pipeline -/

theorem mem_searchMail_exists {w : List MailMsg} {c : SearchCriteria} {u : Nat}
    (h : u ∈ searchMail w c) : ∃ m ∈ w, m.uid = u := by
  cases c with
  | uidFrom n =>
    obtain ⟨m, hm, huid⟩ := List.mem_map.mp h
    exact ⟨m, List.mem_of_mem_filter hm, huid⟩
  | since t =>
    obtain ⟨m, hm, huid⟩ := List.mem_map.mp h
    exact ⟨m, List.mem_of_mem_filter hm, huid⟩

theorem mem_searchMail_uidFrom {w : List MailMsg} {n u : Nat}
    (h : u ∈ searchMail w (SearchCriteria.uidFrom n)) : n ≤ u := by
  obtain ⟨m, hm, huid⟩ := List.mem_map.mp h
  have := List.of_mem_filter hm
  have hn : n ≤ m.uid := by simpa using this
  omega

theorem mem_syncBatchUids_mem_syncUids {w : List MailMsg} {cur : Option Nat} {now : Int}
    {bf lim u : Nat} (h : u ∈ syncBatchUids w cur now bf lim) :
    u ∈ syncUids w cur now bf := by
  unfold syncBatchUids syncBatch at h
  exact orderBatch_subset (mem_map_uid_fetchMsgs h)

theorem mem_syncBatchUids_exists {w : List MailMsg} {cur : Option Nat} {now : Int}
    {bf lim u : Nat} (h : u ∈ syncBatchUids w cur now bf lim) :
    ∃ m ∈ w, m.uid = u := by
  unfold syncBatchUids at h
  obtain ⟨m, hm, huid⟩ := List.mem_map.mp h
  exact ⟨m, mem_fetchMsgs hm, huid⟩

theorem syncBatchUids_sorted (w : List MailMsg) (cur : Option Nat) (now : Int)
    (bf lim : Nat) : List.Sorted (· ≤ ·) (syncBatchUids w cur now bf lim) := by
  unfold syncBatchUids syncBatch
  rw [fetchMsgs_map_uid]
  exact (orderBatch_sorted _ _).filter _

theorem syncOk_cursor_eq_foldl (hash : String → String) (w : List MailMsg)
    (cur : Option Nat) (now : Int) (bf lim : Nat) :
    (syncOk hash w cur now bf lim).cursor
      = (syncBatchUids w cur now bf lim).foldl max (effCursor cur) := by
  unfold syncOk syncBatchUids
  exact (List.foldl_map _ _ _ _).symm

theorem effCursor_le_mem {w : List MailMsg} {cur : Option Nat} {now : Int}
    {bf lim u : Nat} (h : u ∈ syncBatchUids w cur now bf lim) :
    effCursor cur ≤ u := by
  have hmem := mem_syncBatchUids_mem_syncUids h
  unfold syncUids at hmem
  unfold effCursor
  by_cases ht : jsTruthyNat cur
  · rw [if_pos ht] at hmem ⊢
    have := mem_searchMail_uidFrom hmem
    omega
  · rw [if_neg ht]
    exact Nat.zero_le u

/-! ### Helper lemmas: whitespace collapsing -/

/-- Adjacent-character relation forbidding two consecutive whitespace chars. -/
def NoWsPair (a b : Char) : Prop := ¬(isWs a = true ∧ isWs b = true)

theorem collapseRuns_head_of_not_ws {b : Char} {rest : List Char}
    (h : isWs b = false) : (collapseRuns (b :: rest)).head? = some b := by
  cases rest with
  | nil => simp [collapseRuns, h]
  | cons c tail => simp [collapseRuns, h]

theorem collapseRuns_chain (l : List Char) :
    List.Chain' NoWsPair (collapseRuns l) := by
  induction l with
  | nil => simp [collapseRuns]
  | cons a rest ih =>
    cases rest with
    | nil => simp [collapseRuns]
    | cons b tail =>
      cases ha : isWs a with
      | true =>
        cases hb : isWs b with
        | true =>
          have hcoll : collapseRuns (a :: b :: tail) = collapseRuns (b :: tail) := by
            simp [collapseRuns, ha, hb]
          rw [hcoll]
          exact ih
        | false =>
          have hcoll : collapseRuns (a :: b :: tail) = ' ' :: collapseRuns (b :: tail) := by
            simp [collapseRuns, ha, hb]
          rw [hcoll]
          refine List.chain'_cons'.mpr ⟨?_, ih⟩
          intro y hy
          rw [collapseRuns_head_of_not_ws hb] at hy
          cases hy
          simp [NoWsPair, hb]
      | false =>
        have hcoll : collapseRuns (a :: b :: tail) = a :: collapseRuns (b :: tail) := by
          simp [collapseRuns, ha]
        rw [hcoll]
        refine List.chain'_cons'.mpr ⟨?_, ih⟩
        intro y hy
        simp [NoWsPair, ha]

theorem chain_noWsPair_dropWhile {l : List Char} (h : List.Chain' NoWsPair l)
    (p : Char → Bool) : List.Chain' NoWsPair (l.dropWhile p) :=
  h.suffix (List.dropWhile_suffix p)

theorem chain_noWsPair_reverse {l : List Char} (h : List.Chain' NoWsPair l) :
    List.Chain' NoWsPair l.reverse := by
  rw [List.chain'_reverse]
  exact h.imp (fun a b hab => fun hcon => hab ⟨hcon.2, hcon.1⟩)

theorem trimChars_chain {l : List Char} (h : List.Chain' NoWsPair l) :
    List.Chain' NoWsPair (trimChars l) := by
  unfold trimChars
  exact chain_noWsPair_reverse (chain_noWsPair_dropWhile
    (chain_noWsPair_reverse (chain_noWsPair_dropWhile h isWs)) isWs)

/-- The whole snippet pipeline yields a string with no two adjacent
whitespace characters. -/
theorem snippet_pipeline_chain (s : String) (n : Nat) :
    List.Chain' NoWsPair (jsSlice (jsTrim (jsCollapseWs s)) n).data := by
  unfold jsSlice jsTrim jsCollapseWs
  exact (trimChars_chain (collapseRuns_chain s.data)).take n

theorem snippet_pipeline_length (s : String) (n : Nat) :
    (jsSlice (jsTrim (jsCollapseWs s)) n).length ≤ n := by
  unfold jsSlice
  show (String.mk _).data.length ≤ n
  exact List.length_take_le _ _

theorem jsSlice_length (s : String) (n : Nat) : (jsSlice s n).length ≤ n := by
  unfold jsSlice
  show (String.mk _).data.length ≤ n
  exact List.length_take_le _ _

/-! ### Helper lemmas: strings -/

theorem string_append_right_inj (a b c : String) (h : a ++ b = a ++ c) : b = c := by
  have hdata : a.data ++ b.data = a.data ++ c.data := by
    have := congrArg String.data h
    simpa using this
  have hbc : b.data = c.data := List.append_cancel_left hdata
  cases b; cases c
  exact congrArg String.mk hbc

theorem threadKeyInput_ne_of_fromEmail_ne (references : List String)
    (inReplyTo messageId subject : String) {f g : String} (hfg : f ≠ g) :
    threadKeyInput references inReplyTo messageId subject f
      ≠ threadKeyInput references inReplyTo messageId subject g := by
  intro heq
  unfold threadKeyInput at heq
  rw [String.append_assoc, String.append_assoc] at heq
  exact hfg (string_append_right_inj _ _ _
    (string_append_right_inj _ _ _ heq))

/-! ### Small sync-level lemmas -/

theorem effCursor_some (c : Nat) : effCursor (some c) = c := by
  unfold effCursor jsTruthyNat
  by_cases h : c = 0
  · subst h; simp
  · simp [h]

theorem mem_syncUids_exists {w : List MailMsg} {cur : Option Nat} {now : Int}
    {bf u : Nat} (h : u ∈ syncUids w cur now bf) : ∃ m ∈ w, m.uid = u := by
  unfold syncUids at h
  by_cases ht : jsTruthyNat cur
  · rw [if_pos ht] at h; exact mem_searchMail_exists h
  · rw [if_neg ht] at h; exact mem_searchMail_exists h

theorem testSmtp_smtpHost (verify : ConnectionConfig → Except String Unit)
    (advanced : Overrides) (o : Option String) :
    (testSmtp verify advanced o).smtpHost = (cfg { advanced with smtpHost := o }).smtpHost := by
  cases h : verify (cfg { advanced with smtpHost := o }) <;> simp [testSmtp, h]

/-! ### Concrete fixtures used by witnesses and counterexamples -/

/-- A mailbox with three messages, all inside the 14-day backfill window of
the fixed sample time `1700000100000`. -/
def sampleWorld : List MailMsg :=
  [ { uid := 5, internalDate := 1700000000000,
      parsed := { subject := some "Hello  world", text := some "line one  and   two",
                  messageId := some "<m5@x>",
                  references := RefsField.arrRef ["<r1@x>", "<r2@x>"],
                  fromAddress := some "alice@example.com" } },
    { uid := 2, internalDate := 1700000000000,
      parsed := { subject := some "Re: hi", inReplyTo := some "<m1@x>",
                  fromAddress := some "bob@example.com" } },
    { uid := 9, internalDate := 1700000000000, flags := ["Seen"],
      parsed := { text := some "short" } } ]

/-- A mailbox whose only message is far older than any backfill window. -/
def staleWorld : List MailMsg := [ { uid := 5, internalDate := 0 } ]

/-- A single plain message and the mailbox holding only it. -/
def tinyMsg : MailMsg := { uid := 1, internalDate := 1700000000000 }

def tinyWorld : List MailMsg := [tinyMsg]

/-- SMTP verify collaborator that accepts every configuration. -/
def verifyAllOk : ConnectionConfig → Except String Unit := fun _ => Except.ok ()

/-- SMTP verify collaborator that rejects both hosts with distinct errors. -/
def verifyBothFail : ConnectionConfig → Except String Unit := fun c =>
  Except.error (if c.smtpHost = "mail.privateemail.com" then "primary-fail" else "secondary-fail")

/-- SMTP transport collaborator that accepts every delivery. -/
def sendMailAlwaysOk : ConnectionConfig → MailContent → Except String String :=
  fun _ _ => Except.ok "<sent@x>"

/-- A `/send` request body passing validation. -/
def sampleSendBody : SendBody :=
  { fromEmail := some "a@x.com", password := some "pw", rcptTo := some "b@x.com",
    subject := some "subject", bodyText := some "text body" }

/-- A `/sync` request body missing the password. -/
def noPwBody : SyncBody := { email := some "a@x.com" }

/-- The primary delivery attempt of a `/send` call. -/
def sendAttempt1 (sendMail : ConnectionConfig → MailContent → Except String String)
    (body : SendBody) : SmtpAttempt :=
  trySendModel sendMail body.advanced (mailContentOf body) "mail.privateemail.com"

/-- The secondary (failover) delivery attempt of a `/send` call. -/
def sendAttempt2 (sendMail : ConnectionConfig → MailContent → Except String String)
    (body : SendBody) : SmtpAttempt :=
  trySendModel sendMail body.advanced (mailContentOf body) "smtp.privateemail.com"

/-- Unfolding of the `/send` handler on a body that passes validation. -/
theorem sendRoute_valid_eq (sendMail : ConnectionConfig → MailContent → Except String String)
    (body : SendBody) (hvalid : sendMissing body = false) :
    sendRoute sendMail body
      = match (sendAttempt1 sendMail body).outcome with
        | Except.ok id =>
            (SendHttpResponse.ok id "mail.privateemail.com", [sendAttempt1 sendMail body])
        | Except.error _ =>
            match (sendAttempt2 sendMail body).outcome with
            | Except.ok id2 =>
                (SendHttpResponse.ok id2 "smtp.privateemail.com",
                  [sendAttempt1 sendMail body, sendAttempt2 sendMail body])
            | Except.error e2 =>
                (SendHttpResponse.serverError e2,
                  [sendAttempt1 sendMail body, sendAttempt2 sendMail body]) := by
  unfold sendRoute sendAttempt1 sendAttempt2
  rw [hvalid]
  rfl

/-! ### Claim C4 -/

/-- C4 counterexample: a request that supplies `cursor = 0` has the cursor
present, yet the handler takes the backfill branch (JS `if (cursor)` treats 0
as falsy), so the candidate set is not the set of identifiers strictly
greater than the cursor. -/
theorem c4_cursor_zero_counterexample :
    syncUids staleWorld (some 0) 1700000000000 14
        ≠ searchMail staleWorld (SearchCriteria.uidFrom (0 + 1))
    ∧ syncUids staleWorld (some 0) 1700000000000 14 = []
    ∧ searchMail staleWorld (SearchCriteria.uidFrom (0 + 1)) = [5] := by
  decide

/-- C4 (amended): if the cursor is present and nonzero the candidate set is
the identifiers strictly greater than the cursor; if it is absent or zero the
candidate set is the messages with timestamp ≥ now − backfillDays days; and
apart from the candidate set and the initial running-maximum uid (the cursor
when truthy, else 0) the two cases run the identical pipeline. -/
theorem c4_candidate_split (hash : String → String) (world : List MailMsg)
    (cursor : Option Nat) (now : Int) (bf lim : Nat) :
    (∀ c, cursor = some c → c ≠ 0 →
        syncUids world cursor now bf = searchMail world (SearchCriteria.uidFrom (c + 1)))
    ∧ ((cursor = none ∨ cursor = some 0) →
        syncUids world cursor now bf
          = searchMail world (SearchCriteria.since (now - (bf : Int) * (24 * 60 * 60 * 1000))))
    ∧ syncOk hash world cursor now bf lim
        = processBatch hash world (syncUids world cursor now bf) (effCursor cursor) now lim := by
  refine ⟨?_, ?_, ?_⟩
  · intro c hc hne
    subst hc
    unfold syncUids
    simp [jsTruthyNat, hne]
  · intro h
    rcases h with h | h <;> subst h <;> simp [syncUids, jsTruthyNat]
  · rfl

/-- C4 witness: with a nonzero cursor the uid branch is taken. -/
theorem c4_witness :
    syncUids staleWorld (some 3) 1700000000000 14
      = searchMail staleWorld (SearchCriteria.uidFrom (3 + 1)) :=
  (c4_candidate_split (fun s => s) staleWorld (some 3) 1700000000000 14 50).1 3 rfl
    (by decide)

/-! ### Claim C5 -/

/-- C5: the thread key is a pure deterministic function of the tuple
(references, inReplyTo, messageId, subject, fromEmail): identical tuples give
the identical key, and with the other four components fixed, two different
senders feed two different strings to the hash, hence (for an injective hash,
modelling SHA-256 collision-freeness) two different keys. -/
theorem c5_threadKey_deterministic (hash : String → String)
    (references : List String) (inReplyTo messageId subject f g : String)
    (hinj : Function.Injective hash) :
    (∀ references2 inReplyTo2 messageId2 subject2 f2,
        references = references2 → inReplyTo = inReplyTo2 → messageId = messageId2 →
        subject = subject2 → f = f2 →
        externalThreadKey hash references inReplyTo messageId subject f
          = externalThreadKey hash references2 inReplyTo2 messageId2 subject2 f2)
    ∧ (f ≠ g →
        threadKeyInput references inReplyTo messageId subject f
            ≠ threadKeyInput references inReplyTo messageId subject g
        ∧ externalThreadKey hash references inReplyTo messageId subject f
            ≠ externalThreadKey hash references inReplyTo messageId subject g) := by
  constructor
  · intro r2 i2 m2 s2 f2 hr hi hm hs hf
    subst hr; subst hi; subst hm; subst hs; subst hf
    rfl
  · intro hfg
    have hne := threadKeyInput_ne_of_fromEmail_ne references inReplyTo messageId subject hfg
    exact ⟨hne, fun hk => hne (hinj hk)⟩

/-- C5 witness at a concrete tuple and the identity hash. -/
theorem c5_witness :
    threadKeyInput ["<r@x>"] "" "" "subj" "alice@x"
        ≠ threadKeyInput ["<r@x>"] "" "" "subj" "bob@x"
    ∧ externalThreadKey (fun s => s) ["<r@x>"] "" "" "subj" "alice@x"
        ≠ externalThreadKey (fun s => s) ["<r@x>"] "" "" "subj" "bob@x" :=
  (c5_threadKey_deterministic (fun s => s) ["<r@x>"] "" "" "subj" "alice@x" "bob@x"
    (fun _ _ h => h)).2 (by decide)

/-! ### Claim C8 -/

theorem normalizeMsg_snippet (hash : String → String) (now : Int) (m : MailMsg) :
    (normalizeMsg hash now m).snippet
      = jsSlice (jsTrim (jsCollapseWs (jsOrStr m.parsed.text
          (jsOrS (jsOrStr m.parsed.subject (jsOrStr m.envSubject "(no subject)")) "")))) 240 :=
  rfl

theorem normalizeMsg_bodyText (hash : String → String) (now : Int) (m : MailMsg) :
    (normalizeMsg hash now m).bodyText = jsSlice (jsOrStr m.parsed.text "") 20000 :=
  rfl

theorem normalizeMsg_bodyHtml (hash : String → String) (now : Int) (m : MailMsg) :
    (normalizeMsg hash now m).bodyHtml = jsSlice (jsOrStr m.parsed.html "") 20000 :=
  rfl

/-- C8: every NormalizedMessage produced by sync has a snippet of length at
most 240 with no two consecutive whitespace characters, and bodies of length
at most 20000. -/
theorem c8_snippet_and_body_bounds (hash : String → String) (world : List MailMsg)
    (cursor : Option Nat) (now : Int) (bf lim : Nat) (msg : NormalizedMessage)
    (hmem : msg ∈ (syncOk hash world cursor now bf lim).messages) :
    msg.snippet.length ≤ 240 ∧ List.Chain' NoWsPair msg.snippet.data
    ∧ msg.bodyText.length ≤ 20000 ∧ msg.bodyHtml.length ≤ 20000 := by
  have hmsgs : (syncOk hash world cursor now bf lim).messages
      = (syncBatch world cursor now bf lim).map (normalizeMsg hash now) := rfl
  rw [hmsgs] at hmem
  obtain ⟨m, _, rfl⟩ := List.mem_map.mp hmem
  refine ⟨?_, ?_, ?_, ?_⟩
  · rw [normalizeMsg_snippet]; exact snippet_pipeline_length _ _
  · rw [normalizeMsg_snippet]; exact snippet_pipeline_chain _ _
  · rw [normalizeMsg_bodyText]; exact jsSlice_length _ _
  · rw [normalizeMsg_bodyHtml]; exact jsSlice_length _ _

/-- C8 witness at a concrete one-message mailbox. -/
theorem c8_witness :
    (normalizeMsg (fun s => s) 1700000100000 tinyMsg).snippet.length ≤ 240
    ∧ List.Chain' NoWsPair (normalizeMsg (fun s => s) 1700000100000 tinyMsg).snippet.data
    ∧ (normalizeMsg (fun s => s) 1700000100000 tinyMsg).bodyText.length ≤ 20000
    ∧ (normalizeMsg (fun s => s) 1700000100000 tinyMsg).bodyHtml.length ≤ 20000 :=
  c8_snippet_and_body_bounds (fun s => s) tinyWorld none 1700000100000 14 50
    (normalizeMsg (fun s => s) 1700000100000 tinyMsg) (by decide)

/-! ### Claim C9 -/

/-- C9: a caller-supplied `advanced.smtpHost` override is ignored by `/test`
and `/send`: both callers overwrite the override field before `cfg` merges
it, so the primary attempt always targets `mail.privateemail.com` and the
fallback always targets `smtp.privateemail.com`. -/
theorem c9_smtpHost_override_ignored (verify : ConnectionConfig → Except String Unit)
    (advanced : Overrides)
    (sendMail : ConnectionConfig → MailContent → Except String String) (body : SendBody) :
    (cfg { advanced with smtpHost := none }).smtpHost = "mail.privateemail.com"
    ∧ ((testRouteSmtp verify advanced).2 = ["mail.privateemail.com"]
        ∨ (testRouteSmtp verify advanced).2
            = ["mail.privateemail.com", "smtp.privateemail.com"])
    ∧ ((sendRoute sendMail body).2.map (fun a => a.config.smtpHost)
        ∈ ([[], ["mail.privateemail.com"], ["mail.privateemail.com", "smtp.privateemail.com"]]
            : List (List String))) := by
  have h1 : (testSmtp verify advanced none).smtpHost = "mail.privateemail.com" := by
    rw [testSmtp_smtpHost]; rfl
  have h2 : (testSmtp verify advanced (some "smtp.privateemail.com")).smtpHost
      = "smtp.privateemail.com" := by
    rw [testSmtp_smtpHost]; rfl
  refine ⟨rfl, ?_, ?_⟩
  · by_cases hok : (testSmtp verify advanced none).ok = true
    · left
      simp only [testRouteSmtp, hok, if_true]
      rw [h1]
    · right
      simp only [testRouteSmtp, hok]
      simp [h1, h2]
  · by_cases hmiss : sendMissing body = true
    · have hroute : sendRoute sendMail body
          = (SendHttpResponse.badRequest "Missing required fields", []) := by
        unfold sendRoute
        rw [if_pos hmiss]
      rw [hroute]
      simp
    · have hvalid : sendMissing body = false := by
        cases h : sendMissing body
        · rfl
        · exact absurd h hmiss
      rw [sendRoute_valid_eq sendMail body hvalid]
      cases (sendAttempt1 sendMail body).outcome with
      | ok id =>
        have : (sendAttempt1 sendMail body).config.smtpHost = "mail.privateemail.com" := rfl
        simp [this]
      | error e =>
        cases (sendAttempt2 sendMail body).outcome with
        | ok id2 =>
          have ha1 : (sendAttempt1 sendMail body).config.smtpHost
              = "mail.privateemail.com" := rfl
          have ha2 : (sendAttempt2 sendMail body).config.smtpHost
              = "smtp.privateemail.com" := rfl
          simp [ha1, ha2]
        | error e2 =>
          have ha1 : (sendAttempt1 sendMail body).config.smtpHost
              = "mail.privateemail.com" := rfl
          have ha2 : (sendAttempt2 sendMail body).config.smtpHost
              = "smtp.privateemail.com" := rfl
          simp [ha1, ha2]

/-! ### Claim C10 -/

/-- C10: a `/sync` request missing the email or the password is answered with
HTTP 400 and the fixed error body; the sync core is not run and no network
connection is opened (empty action trace). -/
theorem c10_sync_missing_creds (hash : String → String) (world : List MailMsg)
    (now : Int) (body : SyncBody)
    (h : jsFalsyStr body.email = true ∨ jsFalsyStr body.password = true) :
    syncRoute hash world now body
      = (SyncHttpResponse.badRequest "Missing email/password", []) := by
  unfold syncRoute
  rcases h with h | h <;> simp [h]

/-- C10 witness: a concrete body with the password absent. -/
theorem c10_witness :
    syncRoute (fun s => s) [] 0 noPwBody
      = (SyncHttpResponse.badRequest "Missing email/password", []) :=
  c10_sync_missing_creds (fun s => s) [] 0 noPwBody (Or.inr (by decide))

/-! ### Claim C3 -/

/-- C3 counterexample: when both outbound attempts fail, the handler keeps
the PRIMARY attempt's failure (`if (fallback.ok) smtp = fallback` leaves
`smtp` untouched on a failed fallback), not the second attempt's failure as
the claim states. -/
theorem c3_counterexample :
    (testRouteSmtp verifyBothFail {}).1.error = some "primary-fail"
    ∧ (testSmtp verifyBothFail {} (some "smtp.privateemail.com")).error
        = some "secondary-fail"
    ∧ (testRouteSmtp verifyBothFail {}).1
        ≠ testSmtp verifyBothFail {} (some "smtp.privateemail.com") := by
  decide

/-- C3 (amended): the outbound check tries the primary host, on failure tries
the fixed secondary host exactly once, and reports whichever attempt
succeeded — but when both attempts fail it reports the FIRST attempt's
failure. -/
theorem c3_smtp_failover_reports (verify : ConnectionConfig → Except String Unit)
    (advanced : Overrides) :
    ((testSmtp verify advanced none).ok = true →
        testRouteSmtp verify advanced
          = (testSmtp verify advanced none, ["mail.privateemail.com"]))
    ∧ ((testSmtp verify advanced none).ok = false →
        (testRouteSmtp verify advanced).2
            = ["mail.privateemail.com", "smtp.privateemail.com"]
        ∧ ((testSmtp verify advanced (some "smtp.privateemail.com")).ok = true →
            (testRouteSmtp verify advanced).1
              = testSmtp verify advanced (some "smtp.privateemail.com"))
        ∧ ((testSmtp verify advanced (some "smtp.privateemail.com")).ok = false →
            (testRouteSmtp verify advanced).1 = testSmtp verify advanced none)) := by
  have h1 : (testSmtp verify advanced none).smtpHost = "mail.privateemail.com" := by
    rw [testSmtp_smtpHost]; rfl
  have h2 : (testSmtp verify advanced (some "smtp.privateemail.com")).smtpHost
      = "smtp.privateemail.com" := by
    rw [testSmtp_smtpHost]; rfl
  constructor
  · intro hok
    simp only [testRouteSmtp, hok, if_true]
    rw [h1]
  · intro hnok
    refine ⟨?_, ?_, ?_⟩
    · simp only [testRouteSmtp, hnok]
      simp [h1, h2]
    · intro hfb
      simp only [testRouteSmtp, hnok]
      simp [hfb]
    · intro hnfb
      simp only [testRouteSmtp, hnok]
      simp [hnfb]

/-- C3 witness: with a verify collaborator that accepts, the primary result
is reported after a single attempt. -/
theorem c3_witness :
    testRouteSmtp verifyAllOk {}
      = (testSmtp verifyAllOk {} none, ["mail.privateemail.com"]) :=
  (c3_smtp_failover_reports verifyAllOk {}).1 (by decide)

/-! ### Claim C6 -/

/-- C6: a validated `/send` first attempts delivery via the primary host; on
any failure of that attempt the whole send is retried exactly once via the
fixed secondary host with the message content unchanged and only the
destination host differing; the message is accepted by exactly one host when
the call reports success, and by none when it fails. -/
theorem c6_send_failover (sendMail : ConnectionConfig → MailContent → Except String String)
    (body : SendBody) (hvalid : sendMissing body = false) :
    ((sendAttempt1 sendMail body).mail = mailContentOf body
      ∧ (sendAttempt2 sendMail body).mail = mailContentOf body
      ∧ (sendAttempt1 sendMail body).config.smtpHost = "mail.privateemail.com"
      ∧ (sendAttempt2 sendMail body).config
          = { (sendAttempt1 sendMail body).config with smtpHost := "smtp.privateemail.com" })
    ∧ ((sendRoute sendMail body).2 = [sendAttempt1 sendMail body]
          ∧ exceptOk (sendAttempt1 sendMail body).outcome = true
        ∨ (sendRoute sendMail body).2 = [sendAttempt1 sendMail body, sendAttempt2 sendMail body]
          ∧ exceptOk (sendAttempt1 sendMail body).outcome = false)
    ∧ acceptedCount (sendRoute sendMail body).2
        = (if isOkResp (sendRoute sendMail body).1 then 1 else 0) := by
  refine ⟨⟨rfl, rfl, rfl, rfl⟩, ?_, ?_⟩
  · rw [sendRoute_valid_eq sendMail body hvalid]
    cases ho1 : (sendAttempt1 sendMail body).outcome with
    | ok id => exact Or.inl ⟨rfl, rfl⟩
    | error e =>
      cases ho2 : (sendAttempt2 sendMail body).outcome with
      | ok id2 => exact Or.inr ⟨rfl, rfl⟩
      | error e2 => exact Or.inr ⟨rfl, rfl⟩
  · rw [sendRoute_valid_eq sendMail body hvalid]
    cases ho1 : (sendAttempt1 sendMail body).outcome with
    | ok id => simp [acceptedCount, exceptOk, isOkResp, ho1]
    | error e =>
      cases ho2 : (sendAttempt2 sendMail body).outcome with
      | ok id2 => simp [acceptedCount, exceptOk, isOkResp, ho1, ho2]
      | error e2 => simp [acceptedCount, exceptOk, isOkResp, ho1, ho2]

/-- C6 witness: with an always-accepting transport and a valid body, exactly
the primary attempt is made and it succeeds. -/
theorem c6_witness :
    (sendRoute sendMailAlwaysOk sampleSendBody).2
        = [sendAttempt1 sendMailAlwaysOk sampleSendBody]
      ∧ exceptOk (sendAttempt1 sendMailAlwaysOk sampleSendBody).outcome = true
    ∨ (sendRoute sendMailAlwaysOk sampleSendBody).2
        = [sendAttempt1 sendMailAlwaysOk sampleSendBody,
           sendAttempt2 sendMailAlwaysOk sampleSendBody]
      ∧ exceptOk (sendAttempt1 sendMailAlwaysOk sampleSendBody).outcome = false :=
  (c6_send_failover sendMailAlwaysOk sampleSendBody (by decide)).2.1

/-! ### Claim C1 -/

/-- C1: every sync batch is sorted ascending by UID, the returned messages
are exactly the normalizations of that batch in order, and the returned
cursor is the maximum UID over the fetched batch — or the input cursor
unchanged when the batch is empty. -/
theorem c1_sync_sorted_and_cursor (hash : String → String) (world : List MailMsg)
    (cursor : Option Nat) (now : Int) (bf lim : Nat) :
    List.Sorted (· ≤ ·) (syncBatchUids world cursor now bf lim)
    ∧ (syncOk hash world cursor now bf lim).messages
        = (syncBatch world cursor now bf lim).map (normalizeMsg hash now)
    ∧ (syncBatchUids world cursor now bf lim ≠ [] →
        (syncOk hash world cursor now bf lim).cursor ∈ syncBatchUids world cursor now bf lim
          ∧ ∀ u ∈ syncBatchUids world cursor now bf lim,
              u ≤ (syncOk hash world cursor now bf lim).cursor)
    ∧ (syncBatchUids world cursor now bf lim = [] →
        ∀ c0, cursor = some c0 → (syncOk hash world cursor now bf lim).cursor = c0) := by
  have hfold := syncOk_cursor_eq_foldl hash world cursor now bf lim
  refine ⟨syncBatchUids_sorted world cursor now bf lim, rfl, ?_, ?_⟩
  · intro hne
    constructor
    · rcases foldl_max_eq_init_or_mem (syncBatchUids world cursor now bf lim)
        (effCursor cursor) with heq | hmem
      · obtain ⟨u, hu⟩ := List.exists_mem_of_ne_nil _ hne
        have hle1 : u ≤ effCursor cursor := heq ▸ mem_le_foldl_max _ hu
        have hle2 : effCursor cursor ≤ u := effCursor_le_mem hu
        have heff : effCursor cursor = u := Nat.le_antisymm hle2 hle1
        rw [hfold, heq, heff]
        exact hu
      · rw [hfold]
        exact hmem
    · intro u hu
      rw [hfold]
      exact mem_le_foldl_max _ hu
  · intro hemp c0 hc
    subst hc
    rw [hfold, hemp]
    exact effCursor_some c0

/-- C1 witness: on a concrete mailbox the returned cursor is one of the batch
uids (the maximum). -/
theorem c1_witness :
    (syncOk (fun s => s) sampleWorld none 1700000100000 14 50).cursor
      ∈ syncBatchUids sampleWorld none 1700000100000 14 50 :=
  ((c1_sync_sorted_and_cursor (fun s => s) sampleWorld none 1700000100000 14 50).2.2.1
    (by decide)).1

/-! ### Claim C2 -/

/-- C2: when the candidate set has more than `limit` identifiers, the batch
is the `limit` greatest candidates (the suffix of the ascending ordering),
has length exactly `limit`, is delivered ascending, and dominates every
candidate left out. -/
theorem c2_keeps_most_recent (world : List MailMsg) (cursor : Option Nat) (now : Int)
    (bf lim : Nat) (hgt : lim < (syncUids world cursor now bf).length) :
    syncBatchUids world cursor now bf lim
        = (jsSortAsc (syncUids world cursor now bf)).drop
            ((syncUids world cursor now bf).length - lim)
    ∧ (syncBatchUids world cursor now bf lim).length = lim
    ∧ List.Sorted (· ≤ ·) (syncBatchUids world cursor now bf lim)
    ∧ ∀ x ∈ syncBatchUids world cursor now bf lim,
        ∀ y ∈ syncUids world cursor now bf,
          y ∉ syncBatchUids world cursor now bf lim → y ≤ x := by
  have hbatch : syncBatchUids world cursor now bf lim
      = orderBatch (syncUids world cursor now bf) lim := by
    unfold syncBatchUids syncBatch
    exact fetchMsgs_map_uid_eq_self (fun u hu => mem_syncUids_exists (orderBatch_subset hu))
  have hdrop := orderBatch_eq_drop (syncUids world cursor now bf) lim
  refine ⟨by rw [hbatch, hdrop], ?_, syncBatchUids_sorted _ _ _ _ _, ?_⟩
  · rw [hbatch]
    exact orderBatch_length (Nat.le_of_lt hgt)
  · intro x hx y hy hynot
    rw [hbatch, hdrop] at hx hynot
    have hysort : y ∈ jsSortAsc (syncUids world cursor now bf) :=
      (jsSortAsc_perm _).mem_iff.mpr hy
    have hsplit := List.take_append_drop ((syncUids world cursor now bf).length - lim)
      (jsSortAsc (syncUids world cursor now bf))
    have hytake : y ∈ (jsSortAsc (syncUids world cursor now bf)).take
        ((syncUids world cursor now bf).length - lim) := by
      rcases List.mem_append.mp (by rw [hsplit]; exact hysort) with h | h
      · exact h
      · exact absurd h hynot
    exact (jsSortAsc_sorted _).rel_of_mem_take_of_mem_drop hytake hx

/-- C2 witness: three candidates, limit two, batch length two. -/
theorem c2_witness :
    (syncBatchUids sampleWorld none 1700000100000 14 2).length = 2 :=
  (c2_keeps_most_recent sampleWorld none 1700000100000 14 2 (by decide)).2.1

/-! ### Claim C7 -/

/-- C7: feeding the cursor returned by one sync into a second sync yields
batches with disjoint UID sets (all mailbox uids being positive, as IMAP
guarantees). -/
theorem c7_successive_syncs_disjoint (hash : String → String)
    (world1 world2 : List MailMsg) (cursor1 : Option Nat) (now1 now2 : Int)
    (bf1 bf2 lim1 lim2 : Nat) (hpos : ∀ m ∈ world1, 1 ≤ m.uid) :
    List.Disjoint (syncBatchUids world1 cursor1 now1 bf1 lim1)
      (syncBatchUids world2 (some (syncOk hash world1 cursor1 now1 bf1 lim1).cursor)
        now2 bf2 lim2) := by
  intro u hu1 hu2
  have hle : u ≤ (syncOk hash world1 cursor1 now1 bf1 lim1).cursor := by
    rw [syncOk_cursor_eq_foldl]
    exact mem_le_foldl_max _ hu1
  by_cases hzero : (syncOk hash world1 cursor1 now1 bf1 lim1).cursor = 0
  · obtain ⟨m, hm, huid⟩ := mem_syncBatchUids_exists hu1
    have h1 := hpos m hm
    omega
  · have hmem2 := mem_syncBatchUids_mem_syncUids hu2
    unfold syncUids at hmem2
    have htr : jsTruthyNat (some (syncOk hash world1 cursor1 now1 bf1 lim1).cursor)
        = true := by
      simp [jsTruthyNat, hzero]
    rw [if_pos htr] at hmem2
    have hgt : (syncOk hash world1 cursor1 now1 bf1 lim1).cursor + 1 ≤ u := by
      have h2 := mem_searchMail_uidFrom hmem2
      simpa using h2
    omega

/-- C7 witness at a concrete mailbox: the second batch shares no uid with
the first. -/
theorem c7_witness :
    List.Disjoint (syncBatchUids sampleWorld none 1700000100000 14 50)
      (syncBatchUids sampleWorld
        (some (syncOk (fun s => s) sampleWorld none 1700000100000 14 50).cursor)
        1700000100000 14 50) :=
  c7_successive_syncs_disjoint (fun s => s) sampleWorld sampleWorld none
    1700000100000 1700000100000 14 14 50 50 (by decide)

end DerstyGateway

